import Mathlib

/-!
# Order primitives of gotrading (src/core/order.go)

A shallow embedding of the `core.Order` type and its methods, followed by the
properties of the specification that concern them.

Modelling conventions.

* `float64` values are modelled by exact rationals (`ℚ`): the specification
  reads the volume and fee arithmetic as exact arithmetic, up to floating-point
  tolerance.  Division by zero is outside this model (Go yields an infinity or
  NaN there), so no statement below depends on the value of a quotient whose
  divisor is zero.
* Where rounding itself decides a property (the fee rate), the arithmetic of
  `UpdateBaseVolume` is also given in IEEE 754 binary64: a finite binary64
  value is the rational it denotes, `round64` rounds a rational to the nearest
  binary64 value (ties to even), and a product or quotient is the rounded
  exact result.  Results that are not finite are `none`.
* `OrderTransactionType` is a Go `uint`; it is modelled by `Nat`, with the two
  named constants `Bid = 0` and `Ask = 1` (iota).
* A method with a pointer receiver is modelled by explicit state passing: a
  mutator returns the receiver after the call; a method that also returns a
  value returns the pair (receiver after the call, returned value).
* A Go result `(*Order, error)` is modelled by `Except String Order`, the
  string being the message handed to `errors.New`.
-/

namespace core

/-- Modelled from the spec: the declaration of `Currency` is not in order.go; the
specification describes it as an opaque symbolic code compared by value, and
the callers build it from a string (`core.Currency("BTC")`). -/
abbrev Currency := String

/-- Modelled from the spec: the declaration of `CurrencyPair` is not in order.go; the
specification describes it as an ordered pair (base, quote) of currencies, and
the callers build it as `core.CurrencyPair{Base: ..., Quote: ...}`. -/
structure CurrencyPair where
  Base : Currency
  Quote : Currency
deriving DecidableEq, Repr

/-- The zero value of `CurrencyPair` (both codes empty). -/
def CurrencyPair.zero : CurrencyPair := { Base := "", Quote := "" }

/-- OrderTransactionType describes the transaction type: Bid / Ask (a Go `uint`). -/
abbrev OrderTransactionType := Nat

/-- Bid: we are buying the base of a currency pair, or selling the quote (iota = 0). -/
abbrev Bid : OrderTransactionType := 0

/-- Ask: we are selling the base of a currency pair, or buying the quote (iota = 1). -/
abbrev Ask : OrderTransactionType := 1

/-- Order represents an order. -/
structure Order where
  Pair : CurrencyPair
  Price : ℚ
  PriceOfQuoteToBase : ℚ
  BaseVolume : ℚ
  QuoteVolume : ℚ
  TransactionType : OrderTransactionType
  Fee : ℚ
deriving DecidableEq

/-- The zero value `Order{}`. -/
def Order.zero : Order :=
  { Pair := CurrencyPair.zero, Price := 0, PriceOfQuoteToBase := 0, BaseVolume := 0,
    QuoteVolume := 0, TransactionType := 0, Fee := 0 }

/-- UpdateBaseVolume: cascade update on BaseVolume and QuoteVolume.
The three assignments are performed in the order of the source. -/
def Order.UpdateBaseVolume (o : Order) (baseVolume : ℚ) : Order :=
  let o1 : Order := { o with BaseVolume := baseVolume }
  let o2 : Order := { o1 with QuoteVolume := o1.Price * o1.BaseVolume }
  { o2 with Fee := 0.25 * o2.BaseVolume / 100 }

/-- UpdateQuoteVolume: cascade update on BaseVolume and QuoteVolume.
The three assignments are performed in the order of the source. -/
def Order.UpdateQuoteVolume (o : Order) (quoteVolume : ℚ) : Order :=
  let o1 : Order := { o with QuoteVolume := quoteVolume }
  let o2 : Order := { o1 with BaseVolume := o1.QuoteVolume / o1.Price }
  { o2 with Fee := 0.25 * o2.BaseVolume / 100 }

/-- Init initialises an Order: pair, price, inverse price, then the volume cascade. -/
def Order.Init (o : Order) (pair : CurrencyPair) (price : ℚ) (baseVolume : ℚ) : Order :=
  let o1 : Order := { o with Pair := pair }
  let o2 : Order := { o1 with Price := price }
  let o3 : Order := { o2 with PriceOfQuoteToBase := 1 / price }
  o3.UpdateBaseVolume baseVolume

/-- InitAsk initialises an Order, setting the transaction type to Ask. -/
def Order.InitAsk (o : Order) (pair : CurrencyPair) (price : ℚ) (baseVolume : ℚ) : Order :=
  let o1 : Order := { o with TransactionType := Ask }
  o1.Init pair price baseVolume

/-- InitBid initialises an Order, setting the transaction type to Bid. -/
def Order.InitBid (o : Order) (pair : CurrencyPair) (price : ℚ) (baseVolume : ℚ) : Order :=
  let o1 : Order := { o with TransactionType := Bid }
  o1.Init pair price baseVolume

/-- NewAsk returns an Order, setting the transaction type to Ask. -/
def NewAsk (pair : CurrencyPair) (price : ℚ) (baseVolume : ℚ) : Order :=
  let o : Order := Order.zero
  o.InitAsk pair price baseVolume

/-- NewBid returns an Order, setting the transaction type to Bid. -/
def NewBid (pair : CurrencyPair) (price : ℚ) (baseVolume : ℚ) : Order :=
  let o : Order := Order.zero
  o.InitBid pair price baseVolume

/-- CreateMatchingAsk returns an Ask order matching the current Bid (crossing the
spread).  First component: the receiver after the call; second component: the
returned order, or the error. -/
def Order.CreateMatchingAsk (o : Order) : Order × Except String Order :=
  if o.TransactionType ≠ Bid then
    (o, Except.error "order: not a bid")
  else
    let m : Order := o
    let m1 : Order := { m with TransactionType := Ask }
    (o, Except.ok m1)

/-- CreateMatchingBid returns a Bid order matching the current Ask (crossing the
spread).  First component: the receiver after the call; second component: the
returned order, or the error. -/
def Order.CreateMatchingBid (o : Order) : Order × Except String Order :=
  if o.TransactionType ≠ Ask then
    (o, Except.error "order: not a ask")
  else
    let m : Order := o
    let m1 : Order := { m with TransactionType := Bid }
    (o, Except.ok m1)

/-- The order yielded by a call that returns (receiver after the call, result):
the returned order on success, the receiver when the call returns an error. -/
def yielded (r : Order × Except String Order) : Order :=
  match r.2 with
  | Except.ok m => m
  | Except.error _ => r.1

/-- The methods of order.go that take an Order as receiver, with their arguments. -/
inductive OrderCall where
  | Init (pair : CurrencyPair) (price : ℚ) (baseVolume : ℚ)
  | InitAsk (pair : CurrencyPair) (price : ℚ) (baseVolume : ℚ)
  | InitBid (pair : CurrencyPair) (price : ℚ) (baseVolume : ℚ)
  | UpdateBaseVolume (baseVolume : ℚ)
  | UpdateQuoteVolume (quoteVolume : ℚ)
  | CreateMatchingAsk
  | CreateMatchingBid
deriving DecidableEq

/-- The order obtained from `o` by one call: the receiver after a mutator, the
order yielded by a matching derivation. -/
def Order.call (o : Order) : OrderCall → Order
  | OrderCall.Init pair price baseVolume => o.Init pair price baseVolume
  | OrderCall.InitAsk pair price baseVolume => o.InitAsk pair price baseVolume
  | OrderCall.InitBid pair price baseVolume => o.InitBid pair price baseVolume
  | OrderCall.UpdateBaseVolume baseVolume => o.UpdateBaseVolume baseVolume
  | OrderCall.UpdateQuoteVolume quoteVolume => o.UpdateQuoteVolume quoteVolume
  | OrderCall.CreateMatchingAsk => yielded o.CreateMatchingAsk
  | OrderCall.CreateMatchingBid => yielded o.CreateMatchingBid

/-- The order obtained from `o` by a finite sequence of calls, left to right. -/
def Order.calls (o : Order) (cs : List OrderCall) : Order :=
  cs.foldl Order.call o

/-- The calls that are a matching derivation. -/
def OrderCall.isMatching : OrderCall → Bool
  | OrderCall.CreateMatchingAsk => true
  | OrderCall.CreateMatchingBid => true
  | _ => false

/-- The calls that set the side together with pair, price and volume. -/
def OrderCall.isSideInit : OrderCall → Bool
  | OrderCall.InitAsk _ _ _ => true
  | OrderCall.InitBid _ _ _ => true
  | _ => false

/-- The calls that update a volume or derive a matching order. -/
def OrderCall.isUpdateOrMatching : OrderCall → Bool
  | OrderCall.UpdateBaseVolume _ => true
  | OrderCall.UpdateQuoteVolume _ => true
  | OrderCall.CreateMatchingAsk => true
  | OrderCall.CreateMatchingBid => true
  | _ => false

/-- The three Order invariants of the specification, read in exact arithmetic. -/
def Order.Invariant (o : Order) : Prop :=
  o.PriceOfQuoteToBase = 1 / o.Price ∧
  o.QuoteVolume = o.Price * o.BaseVolume ∧
  o.Fee = 0.0025 * o.BaseVolume

instance (o : Order) : Decidable o.Invariant := by
  unfold Order.Invariant; infer_instance

/-- Round a rational to the nearest integer, a tie going to the even integer. -/
def roundTiesEven (x : ℚ) : ℤ :=
  if x - ⌊x⌋ < 1 / 2 then ⌊x⌋
  else if 1 / 2 < x - ⌊x⌋ then ⌊x⌋ + 1
  else if ⌊x⌋ % 2 = 0 then ⌊x⌋ else ⌊x⌋ + 1

/-- The binary64 value nearest to the rational x, under the rounding of Go
float64 arithmetic (IEEE 754 round to nearest, ties to even): a significand of
53 bits, so a spacing of 2^(e-52) in the binade 2^e ≤ |x| < 2^(e+1), and the
spacing 2^(-1074) below 2^(-1022) (gradual underflow).  The result is none when
the rounded magnitude reaches 2^1024 (overflow to an infinity). -/
def round64 (x : ℚ) : Option ℚ :=
  if x = 0 then some 0
  else
    let e : ℤ := max (Int.log 2 |x|) (-1022)
    let y : ℚ := (roundTiesEven (x / 2 ^ (e - 52)) : ℚ) * 2 ^ (e - 52)
    if (2 : ℚ) ^ (1024 : ℤ) ≤ |y| then none else some y

/-- The float64 product of two finite float64 values: the exact product, rounded. -/
def mul64 (a b : ℚ) : Option ℚ := round64 (a * b)

/-- The float64 quotient of two finite float64 values: the exact quotient,
rounded; none for a zero divisor (an infinity or NaN in Go). -/
def div64 (a b : ℚ) : Option ℚ := if b = 0 then none else round64 (a / b)

/-- UpdateBaseVolume in binary64 arithmetic, on an order with finite fields: the
three assignments of order.go lines 62 to 64, each product and quotient rounded
(`0.25 * o.BaseVolume / 100` is the product divided by 100, and the constants
0.25 and 100 are exact in binary64).  The result is none when a product or
quotient is not finite. -/
def Order.UpdateBaseVolume64 (o : Order) (baseVolume : ℚ) : Option Order :=
  let o1 : Order := { o with BaseVolume := baseVolume }
  (mul64 o1.Price o1.BaseVolume).bind fun quoteVolume =>
    let o2 : Order := { o1 with QuoteVolume := quoteVolume }
    (mul64 0.25 o2.BaseVolume).bind fun quarter =>
      (div64 quarter 100).bind fun fee =>
        some { o2 with Fee := fee }

/-- A bid on ETH/BTC at price 2 for 3 units of base. -/
def sampleBid : Order :=
  { Pair := { Base := "ETH", Quote := "BTC" }, Price := 2, PriceOfQuoteToBase := 1 / 2,
    BaseVolume := 3, QuoteVolume := 6, TransactionType := Bid, Fee := 3 / 400 }

/-- An ask on ETH/BTC at price 4 for 1 unit of base. -/
def sampleAsk : Order :=
  { Pair := { Base := "ETH", Quote := "BTC" }, Price := 4, PriceOfQuoteToBase := 1 / 4,
    BaseVolume := 1, QuoteVolume := 4, TransactionType := Ask, Fee := 1 / 400 }

/-- The pair ETH/BTC. -/
def ethBtc : CurrencyPair := { Base := "ETH", Quote := "BTC" }

/-! ## Properties -/

/-- C1: for every Order with Price > 0 and every base volume v ≥ 0, after
UpdateBaseVolume(v) the order has BaseVolume = v and QuoteVolume = Price × v
(the price itself being unchanged by the call). -/
theorem UpdateBaseVolume_forward_cascade (o : Order) (v : ℚ)
    (_hp : 0 < o.Price) (_hv : 0 ≤ v) :
    (o.UpdateBaseVolume v).BaseVolume = v ∧
    (o.UpdateBaseVolume v).QuoteVolume = o.Price * v ∧
    (o.UpdateBaseVolume v).Price = o.Price := by
  simp [Order.UpdateBaseVolume]

/-- The forward cascade on the sample bid with base volume 5. -/
theorem UpdateBaseVolume_forward_cascade_witness :
    (0 : ℚ) < sampleBid.Price ∧ (0 : ℚ) ≤ 5 ∧
    ((sampleBid.UpdateBaseVolume 5).BaseVolume = 5 ∧
     (sampleBid.UpdateBaseVolume 5).QuoteVolume = sampleBid.Price * 5 ∧
     (sampleBid.UpdateBaseVolume 5).Price = sampleBid.Price) :=
  ⟨by simp [sampleBid], by simp,
   UpdateBaseVolume_forward_cascade sampleBid 5 (by simp [sampleBid]) (by simp)⟩

/-- C2: for every Order with Price > 0 and every quote volume q ≥ 0, after
UpdateQuoteVolume(q) the order has QuoteVolume = q and BaseVolume = q / Price
(the price itself being unchanged by the call). -/
theorem UpdateQuoteVolume_reverse_cascade (o : Order) (q : ℚ)
    (_hp : 0 < o.Price) (_hq : 0 ≤ q) :
    (o.UpdateQuoteVolume q).QuoteVolume = q ∧
    (o.UpdateQuoteVolume q).BaseVolume = q / o.Price ∧
    (o.UpdateQuoteVolume q).Price = o.Price := by
  simp [Order.UpdateQuoteVolume]

/-- The reverse cascade on the sample bid with quote volume 5. -/
theorem UpdateQuoteVolume_reverse_cascade_witness :
    (0 : ℚ) < sampleBid.Price ∧ (0 : ℚ) ≤ 5 ∧
    ((sampleBid.UpdateQuoteVolume 5).QuoteVolume = 5 ∧
     (sampleBid.UpdateQuoteVolume 5).BaseVolume = 5 / sampleBid.Price ∧
     (sampleBid.UpdateQuoteVolume 5).Price = sampleBid.Price) :=
  ⟨by simp [sampleBid], by simp,
   UpdateQuoteVolume_reverse_cascade sampleBid 5 (by simp [sampleBid]) (by simp)⟩

/-- C3: CreateMatchingAsk succeeds exactly when the side of the receiver is Bid.
On a Bid it returns, without error, the receiver with its side set to Ask, so
an Ask with the same Price and Pair; on an Ask it returns the error and no
Order. -/
theorem CreateMatchingAsk_succeeds_iff_bid (o : Order) :
    (o.TransactionType = Bid →
      o.CreateMatchingAsk.2 = Except.ok { o with TransactionType := Ask }) ∧
    (o.TransactionType = Ask →
      o.CreateMatchingAsk.2 = Except.error "order: not a bid") ∧
    ((∃ m, o.CreateMatchingAsk.2 = Except.ok m) ↔ o.TransactionType = Bid) ∧
    (∀ m, o.CreateMatchingAsk.2 = Except.ok m →
      m.TransactionType = Ask ∧ m.Price = o.Price ∧ m.Pair = o.Pair) := by
  by_cases h : o.TransactionType = 0
  · refine ⟨?_, ?_, ?_, ?_⟩
    · intro _; simp [Order.CreateMatchingAsk, h]
    · intro h1; rw [h] at h1; exact absurd h1 (by decide)
    · simp [Order.CreateMatchingAsk, h]
    · intro m hm
      simp only [Order.CreateMatchingAsk, h, ne_eq, not_true_eq_false, if_false,
        Except.ok.injEq] at hm
      subst hm; simp
  · refine ⟨?_, ?_, ?_, ?_⟩
    · intro h0; exact absurd h0 h
    · intro _; simp [Order.CreateMatchingAsk, h]
    · simp [Order.CreateMatchingAsk, h]
    · intro m hm; simp [Order.CreateMatchingAsk, h] at hm

/-- The sample bid yields a matching ask; the sample ask yields the error. -/
theorem CreateMatchingAsk_succeeds_iff_bid_witness :
    (sampleBid.TransactionType = Bid ∧
      sampleBid.CreateMatchingAsk.2 = Except.ok { sampleBid with TransactionType := Ask }) ∧
    (sampleAsk.TransactionType = Ask ∧
      sampleAsk.CreateMatchingAsk.2 = Except.error "order: not a bid") :=
  ⟨⟨rfl, (CreateMatchingAsk_succeeds_iff_bid sampleBid).1 rfl⟩,
   ⟨rfl, (CreateMatchingAsk_succeeds_iff_bid sampleAsk).2.1 rfl⟩⟩

/-- C4: CreateMatchingBid succeeds exactly when the side of the receiver is Ask.
On an Ask it returns, without error, the receiver with its side set to Bid, so
a Bid with the same Price and Pair; on a Bid it returns the error and no
Order. -/
theorem CreateMatchingBid_succeeds_iff_ask (o : Order) :
    (o.TransactionType = Ask →
      o.CreateMatchingBid.2 = Except.ok { o with TransactionType := Bid }) ∧
    (o.TransactionType = Bid →
      o.CreateMatchingBid.2 = Except.error "order: not a ask") ∧
    ((∃ m, o.CreateMatchingBid.2 = Except.ok m) ↔ o.TransactionType = Ask) ∧
    (∀ m, o.CreateMatchingBid.2 = Except.ok m →
      m.TransactionType = Bid ∧ m.Price = o.Price ∧ m.Pair = o.Pair) := by
  by_cases h : o.TransactionType = 1
  · refine ⟨?_, ?_, ?_, ?_⟩
    · intro _; simp [Order.CreateMatchingBid, h]
    · intro h0; rw [h] at h0; exact absurd h0 (by decide)
    · simp [Order.CreateMatchingBid, h]
    · intro m hm
      simp only [Order.CreateMatchingBid, h, ne_eq, not_true_eq_false, if_false,
        Except.ok.injEq] at hm
      subst hm; simp
  · refine ⟨?_, ?_, ?_, ?_⟩
    · intro h1; exact absurd h1 h
    · intro _; simp [Order.CreateMatchingBid, h]
    · simp [Order.CreateMatchingBid, h]
    · intro m hm; simp [Order.CreateMatchingBid, h] at hm

/-- The sample ask yields a matching bid; the sample bid yields the error. -/
theorem CreateMatchingBid_succeeds_iff_ask_witness :
    (sampleAsk.TransactionType = Ask ∧
      sampleAsk.CreateMatchingBid.2 = Except.ok { sampleAsk with TransactionType := Bid }) ∧
    (sampleBid.TransactionType = Bid ∧
      sampleBid.CreateMatchingBid.2 = Except.error "order: not a ask") :=
  ⟨⟨rfl, (CreateMatchingBid_succeeds_iff_ask sampleAsk).1 rfl⟩,
   ⟨rfl, (CreateMatchingBid_succeeds_iff_ask sampleBid).2.1 rfl⟩⟩

/-- C5 (as stated, refuted): the price -1 is not rejected.  NewBid, NewAsk,
InitBid, InitAsk and Init all produce an Order whose Price is -1; no error is
raised, the constructors having no error result at all. -/
theorem construction_accepts_negative_price :
    NewBid ethBtc (-1) 2 =
      { Pair := ethBtc, Price := -1, PriceOfQuoteToBase := -1, BaseVolume := 2,
        QuoteVolume := -2, TransactionType := Bid, Fee := 1 / 200 } ∧
    NewAsk ethBtc (-1) 2 =
      { Pair := ethBtc, Price := -1, PriceOfQuoteToBase := -1, BaseVolume := 2,
        QuoteVolume := -2, TransactionType := Ask, Fee := 1 / 200 } ∧
    sampleAsk.InitBid ethBtc (-1) 2 = NewBid ethBtc (-1) 2 ∧
    sampleBid.InitAsk ethBtc (-1) 2 = NewAsk ethBtc (-1) 2 ∧
    (sampleBid.Init ethBtc (-1) 2).Price = -1 := by
  refine ⟨?_, ?_, ?_, ?_, ?_⟩ <;>
    norm_num [NewBid, NewAsk, Order.InitBid, Order.InitAsk, Order.Init,
      Order.UpdateBaseVolume, Order.zero, sampleBid, sampleAsk]

/-- C5 (amended): Order construction performs no price validation.  For every
pair, every base volume and every price ≤ 0, NewBid, NewAsk, InitBid, InitAsk
and Init complete and yield an Order that carries the given pair, the given
(non-positive) price, the given base volume and the quote volume
price × baseVolume. -/
theorem construction_keeps_non_positive_price (o : Order) (pair : CurrencyPair)
    (price v : ℚ) (_hp : price ≤ 0) :
    ((NewBid pair price v).TransactionType = Bid ∧ (NewBid pair price v).Pair = pair ∧
      (NewBid pair price v).Price = price ∧ (NewBid pair price v).BaseVolume = v ∧
      (NewBid pair price v).QuoteVolume = price * v) ∧
    ((NewAsk pair price v).TransactionType = Ask ∧ (NewAsk pair price v).Pair = pair ∧
      (NewAsk pair price v).Price = price ∧ (NewAsk pair price v).BaseVolume = v ∧
      (NewAsk pair price v).QuoteVolume = price * v) ∧
    o.InitBid pair price v = NewBid pair price v ∧
    o.InitAsk pair price v = NewAsk pair price v ∧
    ((o.Init pair price v).TransactionType = o.TransactionType ∧
      (o.Init pair price v).Pair = pair ∧ (o.Init pair price v).Price = price ∧
      (o.Init pair price v).BaseVolume = v ∧
      (o.Init pair price v).QuoteVolume = price * v) := by
  simp [NewBid, NewAsk, Order.InitBid, Order.InitAsk, Order.Init, Order.UpdateBaseVolume]

/-- Construction at price -3 and at base volume 7, starting from the sample ask. -/
theorem construction_keeps_non_positive_price_witness :
    (-3 : ℚ) ≤ 0 ∧ (NewBid ethBtc (-3) 7).Price = -3 ∧ (NewAsk ethBtc (-3) 7).Price = -3 ∧
    sampleAsk.InitBid ethBtc (-3) 7 = NewBid ethBtc (-3) 7 :=
  ⟨by simp,
   (construction_keeps_non_positive_price sampleAsk ethBtc (-3) 7 (by simp)).1.2.2.1,
   (construction_keeps_non_positive_price sampleAsk ethBtc (-3) 7 (by simp)).2.1.2.2.1,
   (construction_keeps_non_positive_price sampleAsk ethBtc (-3) 7 (by simp)).2.2.1⟩

/-- A rational within less than one half of an integer rounds to that integer. -/
theorem roundTiesEven_of_abs_sub_lt (x : ℚ) (n : ℤ) (h : |x - n| < 1 / 2) :
    roundTiesEven x = n := by
  rw [abs_lt] at h
  obtain ⟨h1, h2⟩ := h
  unfold roundTiesEven
  by_cases hx : (n : ℚ) ≤ x
  · have hf : ⌊x⌋ = n := by
      rw [Int.floor_eq_iff]
      exact ⟨hx, by linarith⟩
    rw [hf, if_pos (by linarith)]
  · push_neg at hx
    have hf : ⌊x⌋ = n - 1 := by
      rw [Int.floor_eq_iff]
      push_cast
      constructor <;> linarith
    rw [hf]
    push_cast
    rw [if_neg (by linarith), if_pos (by linarith)]
    ring

/-- The value of round64 at x, from the binade 2^e ≤ |x| < 2^(e+1) of x (in the
normal range) and the integer m nearest to x / 2^(e-52). -/
theorem round64_of_bounds (x : ℚ) (e m : ℤ) (hlo : (2 : ℚ) ^ e ≤ |x|)
    (hhi : |x| < (2 : ℚ) ^ (e + 1)) (he : -1022 ≤ e)
    (hm : |x / 2 ^ (e - 52) - m| < 1 / 2)
    (hfin : |(m : ℚ) * 2 ^ (e - 52)| < 2 ^ (1024 : ℤ)) :
    round64 x = some ((m : ℚ) * 2 ^ (e - 52)) := by
  have hpos : 0 < |x| := lt_of_lt_of_le (by positivity) hlo
  have hx : x ≠ 0 := abs_pos.mp hpos
  have hlog : Int.log 2 |x| = e := by
    apply le_antisymm
    · have hlt := (Int.lt_zpow_iff_log_lt (R := ℚ) (b := 2) (by norm_num) hpos).mp
        (by exact_mod_cast hhi)
      omega
    · exact (Int.zpow_le_iff_le_log (R := ℚ) (b := 2) (by norm_num) hpos).mp
        (by exact_mod_cast hlo)
  unfold round64
  rw [if_neg hx]
  simp only [hlog, max_eq_left he]
  rw [roundTiesEven_of_abs_sub_lt _ m hm, if_neg (not_le.mpr hfin)]

/-- The float64 product 2 × 35 is 70. -/
theorem mul64_two_35 : mul64 2 35 = some 70 := by
  have h := round64_of_bounds (2 * 35) 6 (70 * 2 ^ 46) (by norm_num [abs_of_pos])
    (by norm_num [abs_of_pos]) (by norm_num) (by rw [abs_lt]; norm_num)
    (by rw [abs_lt]; norm_num)
  rw [mul64, h]
  norm_num

/-- The float64 product 0.25 × 35 is 8.75. -/
theorem mul64_quarter_35 : mul64 0.25 35 = some (35 / 4) := by
  have h := round64_of_bounds (0.25 * 35) 3 (35 * 2 ^ 47) (by norm_num [abs_of_pos])
    (by norm_num [abs_of_pos]) (by norm_num) (by rw [abs_lt]; norm_num)
    (by rw [abs_lt]; norm_num)
  rw [mul64, h]
  norm_num

/-- The float64 quotient 8.75 / 100 is 6305039478318694 × 2^(-56), printed 0.0875. -/
theorem div64_35_quarters_100 :
    div64 (35 / 4) 100 = some (6305039478318694 / 2 ^ 56) := by
  have h := round64_of_bounds (35 / 4 / 100) (-4) 6305039478318694
    (by norm_num [abs_of_pos]) (by norm_num [abs_of_pos]) (by norm_num)
    (by rw [abs_lt]; norm_num) (by rw [abs_lt]; norm_num)
  rw [div64, if_neg (by norm_num), h]
  norm_num

/-- The float64 constant 0.0025 is 5764607523034235 × 2^(-61). -/
theorem round64_rate : round64 0.0025 = some (5764607523034235 / 2 ^ 61) := by
  have h := round64_of_bounds 0.0025 (-9) 5764607523034235
    (by norm_num [abs_of_pos]) (by norm_num [abs_of_pos]) (by norm_num)
    (by rw [abs_lt]; norm_num) (by rw [abs_lt]; norm_num)
  rw [h]
  norm_num

/-- The float64 product of the constant 0.0025 and 35 is
6305039478318695 × 2^(-56), printed 0.08750000000000001. -/
theorem mul64_rate_35 :
    mul64 (5764607523034235 / 2 ^ 61) 35 = some (6305039478318695 / 2 ^ 56) := by
  have h := round64_of_bounds (5764607523034235 / 2 ^ 61 * 35) (-4) 6305039478318695
    (by norm_num [abs_of_pos]) (by norm_num [abs_of_pos]) (by norm_num)
    (by rw [abs_lt]; norm_num) (by rw [abs_lt]; norm_num)
  rw [mul64, h]
  norm_num

/-- C6 (as stated, refuted): in float64 the Fee is not 0.0025 × BaseVolume.  After
UpdateBaseVolume(35) on the sample bid (price 2 > 0) the base volume is 35 and
the Fee is 0.25 × 35 / 100 = 6305039478318694 × 2^(-56) (printed 0.0875), whereas
the float64 product 0.0025 × 35 is 6305039478318695 × 2^(-56) (printed
0.08750000000000001); the Fee is not the exact product 0.0025 × 35 either. -/
theorem fee_differs_from_rate_times_base_in_float64 :
    0 < sampleBid.Price ∧
    (sampleBid.UpdateBaseVolume64 35).map Order.BaseVolume = some 35 ∧
    (sampleBid.UpdateBaseVolume64 35).map Order.Fee =
      some (6305039478318694 / 2 ^ 56) ∧
    (round64 0.0025).bind (fun rate => mul64 rate 35) =
      some (6305039478318695 / 2 ^ 56) ∧
    (sampleBid.UpdateBaseVolume64 35).map Order.Fee ≠
      (round64 0.0025).bind (fun rate => mul64 rate 35) ∧
    (sampleBid.UpdateBaseVolume64 35).map Order.Fee ≠ some (0.0025 * 35) := by
  have hu : sampleBid.UpdateBaseVolume64 35 =
      some { sampleBid with BaseVolume := 35, QuoteVolume := 70,
                            Fee := 6305039478318694 / 2 ^ 56 } := by
    simp only [Order.UpdateBaseVolume64, sampleBid, mul64_two_35, mul64_quarter_35,
      div64_35_quarters_100, Option.some_bind]
  have hr : (round64 0.0025).bind (fun rate => mul64 rate 35) =
      some (6305039478318695 / 2 ^ 56) := by
    rw [round64_rate, Option.some_bind, mul64_rate_35]
  refine ⟨by simp [sampleBid], ?_, ?_, hr, ?_, ?_⟩
  · rw [hu]; rfl
  · rw [hu]; rfl
  · rw [hu, hr]; norm_num
  · rw [hu]; norm_num

/-- C6 (amended): read in exact arithmetic, after each operation that sets or
changes the volumes of an Order (Init, InitBid, InitAsk, NewBid, NewAsk,
UpdateBaseVolume, UpdateQuoteVolume), with a positive price, the Fee, which the
code computes as 0.25 × BaseVolume / 100, equals 0.0025 × BaseVolume on the
resulting order, the base volume being the one after the update (v,
respectively q / Price). -/
theorem fee_is_quarter_percent_of_base (o : Order) (pair : CurrencyPair)
    (price v : ℚ) (_hp : 0 < price) (_ho : 0 < o.Price) :
    (o.Init pair price v).Fee = 0.0025 * (o.Init pair price v).BaseVolume ∧
    (o.InitBid pair price v).Fee = 0.0025 * (o.InitBid pair price v).BaseVolume ∧
    (o.InitAsk pair price v).Fee = 0.0025 * (o.InitAsk pair price v).BaseVolume ∧
    (NewBid pair price v).Fee = 0.0025 * (NewBid pair price v).BaseVolume ∧
    (NewAsk pair price v).Fee = 0.0025 * (NewAsk pair price v).BaseVolume ∧
    (o.UpdateBaseVolume v).Fee = 0.0025 * (o.UpdateBaseVolume v).BaseVolume ∧
    (o.UpdateQuoteVolume v).Fee = 0.0025 * (o.UpdateQuoteVolume v).BaseVolume ∧
    (o.UpdateBaseVolume v).Fee = 0.0025 * v ∧
    (o.UpdateQuoteVolume v).Fee = 0.0025 * (v / o.Price) ∧
    (o.UpdateBaseVolume v).Fee = 0.25 * (o.UpdateBaseVolume v).BaseVolume / 100 ∧
    (o.UpdateQuoteVolume v).Fee = 0.25 * (o.UpdateQuoteVolume v).BaseVolume / 100 := by
  simp only [NewBid, NewAsk, Order.InitBid, Order.InitAsk, Order.Init,
    Order.UpdateBaseVolume, Order.UpdateQuoteVolume]
  refine ⟨?_, ?_, ?_, ?_, ?_, ?_, ?_, ?_, ?_, trivial, trivial⟩ <;> ring

/-- The fee in exact arithmetic at price 2 and volume 35, on the sample bid. -/
theorem fee_is_quarter_percent_of_base_witness :
    (0 : ℚ) < 2 ∧ (0 : ℚ) < sampleBid.Price ∧
    (NewBid ethBtc 2 35).Fee = 0.0025 * (NewBid ethBtc 2 35).BaseVolume ∧
    (sampleBid.UpdateBaseVolume 35).Fee = 0.0025 * 35 ∧
    (sampleBid.UpdateQuoteVolume 35).Fee = 0.0025 * (35 / sampleBid.Price) :=
  ⟨by simp, by simp [sampleBid],
   (fee_is_quarter_percent_of_base sampleBid ethBtc 2 35 (by simp)
      (by simp [sampleBid])).2.2.2.1,
   (fee_is_quarter_percent_of_base sampleBid ethBtc 2 35 (by simp)
      (by simp [sampleBid])).2.2.2.2.2.2.2.1,
   (fee_is_quarter_percent_of_base sampleBid ethBtc 2 35 (by simp)
      (by simp [sampleBid])).2.2.2.2.2.2.2.2.1⟩

/-- C7: CreateMatchingAsk and CreateMatchingBid never modify the receiver: after
the call, successful or not, the receiver equals the receiver before.  On
success the returned Order differs from the receiver in TransactionType only:
Pair, Price, PriceOfQuoteToBase, BaseVolume, QuoteVolume and Fee are copied. -/
theorem matching_derivation_frame (o m : Order) :
    o.CreateMatchingAsk.1 = o ∧ o.CreateMatchingBid.1 = o ∧
    ((o.CreateMatchingAsk.2 = Except.ok m ∨ o.CreateMatchingBid.2 = Except.ok m) →
      m.Pair = o.Pair ∧ m.Price = o.Price ∧
      m.PriceOfQuoteToBase = o.PriceOfQuoteToBase ∧ m.BaseVolume = o.BaseVolume ∧
      m.QuoteVolume = o.QuoteVolume ∧ m.Fee = o.Fee ∧
      m.TransactionType ≠ o.TransactionType) := by
  refine ⟨?_, ?_, ?_⟩
  · unfold Order.CreateMatchingAsk; split <;> rfl
  · unfold Order.CreateMatchingBid; split <;> rfl
  · rintro (h | h)
    · by_cases hb : o.TransactionType = 0
      · simp only [Order.CreateMatchingAsk, hb, ne_eq, not_true_eq_false, if_false,
          Except.ok.injEq] at h
        subst h; simp [hb]
      · simp [Order.CreateMatchingAsk, hb] at h
    · by_cases ha : o.TransactionType = 1
      · simp only [Order.CreateMatchingBid, ha, ne_eq, not_true_eq_false, if_false,
          Except.ok.injEq] at h
        subst h; simp [ha]
      · simp [Order.CreateMatchingBid, ha] at h

/-- The matching ask derived from the sample bid, and the untouched receiver. -/
theorem matching_derivation_frame_witness :
    sampleBid.CreateMatchingAsk.1 = sampleBid ∧
    sampleBid.CreateMatchingAsk.2 = Except.ok { sampleBid with TransactionType := Ask } ∧
    ({ sampleBid with TransactionType := Ask } : Order).Fee = sampleBid.Fee :=
  ⟨(matching_derivation_frame sampleBid { sampleBid with TransactionType := Ask }).1,
   rfl,
   ((matching_derivation_frame sampleBid { sampleBid with TransactionType := Ask }).2.2
      (Or.inl rfl)).2.2.2.2.2.1⟩

/-- C8: for every pair, every price > 0 and every base volume v, NewBid returns
an Order with side Bid and NewAsk an Order with side Ask, each with Pair = pair,
Price = price, PriceOfQuoteToBase = 1 / price, BaseVolume = v and
QuoteVolume = price × v; and from any prior state o, InitBid and InitAsk with
the same arguments leave o equal to the NewBid, respectively NewAsk, result. -/
theorem new_and_init_results (o : Order) (pair : CurrencyPair) (price v : ℚ)
    (_hp : 0 < price) :
    ((NewBid pair price v).TransactionType = Bid ∧ (NewBid pair price v).Pair = pair ∧
      (NewBid pair price v).Price = price ∧
      (NewBid pair price v).PriceOfQuoteToBase = 1 / price ∧
      (NewBid pair price v).BaseVolume = v ∧
      (NewBid pair price v).QuoteVolume = price * v) ∧
    ((NewAsk pair price v).TransactionType = Ask ∧ (NewAsk pair price v).Pair = pair ∧
      (NewAsk pair price v).Price = price ∧
      (NewAsk pair price v).PriceOfQuoteToBase = 1 / price ∧
      (NewAsk pair price v).BaseVolume = v ∧
      (NewAsk pair price v).QuoteVolume = price * v) ∧
    o.InitBid pair price v = NewBid pair price v ∧
    o.InitAsk pair price v = NewAsk pair price v := by
  simp [NewBid, NewAsk, Order.InitBid, Order.InitAsk, Order.Init, Order.UpdateBaseVolume]

/-- NewBid and NewAsk at price 4 and volume 3; InitBid on the sample ask. -/
theorem new_and_init_results_witness :
    (0 : ℚ) < 4 ∧ (NewBid ethBtc 4 3).QuoteVolume = 4 * 3 ∧
    (NewAsk ethBtc 4 3).PriceOfQuoteToBase = 1 / 4 ∧
    sampleAsk.InitBid ethBtc 4 3 = NewBid ethBtc 4 3 :=
  ⟨by simp,
   (new_and_init_results sampleAsk ethBtc 4 3 (by simp)).1.2.2.2.2.2,
   (new_and_init_results sampleAsk ethBtc 4 3 (by simp)).2.1.2.2.2.1,
   (new_and_init_results sampleAsk ethBtc 4 3 (by simp)).2.2.1⟩

/-- C9 (as stated, refuted): the matching derivations are not the only operations
that yield an Order with a different side.  InitAsk, called on the sample bid,
leaves it with side Ask, and InitAsk is not a matching derivation. -/
theorem side_changed_by_InitAsk :
    sampleBid.TransactionType = Bid ∧
    (sampleBid.call (OrderCall.InitAsk ethBtc 2 3)).TransactionType = Ask ∧
    (OrderCall.InitAsk ethBtc 2 3).isMatching = false ∧
    ¬ (∀ (o : Order) (c : OrderCall),
        (o.call c).TransactionType ≠ o.TransactionType → c.isMatching = true) := by
  refine ⟨rfl, rfl, rfl, ?_⟩
  intro h
  have h1 := h sampleBid (OrderCall.InitAsk ethBtc 2 3)
    (by simp [Order.call, Order.InitAsk, Order.Init, Order.UpdateBaseVolume, sampleBid])
  simp [OrderCall.isMatching] at h1

/-- C9 (amended): UpdateBaseVolume, UpdateQuoteVolume and Init leave
TransactionType unchanged, and the two volume mutators also leave Pair, Price
and PriceOfQuoteToBase unchanged; the only calls that yield an Order with a
different side are the matching derivations CreateMatchingAsk and
CreateMatchingBid and the side-setting initialisers InitAsk and InitBid. -/
theorem side_changes_only_by_matching_or_side_init (o : Order) (pair : CurrencyPair)
    (price v : ℚ) (c : OrderCall) :
    ((o.UpdateBaseVolume v).TransactionType = o.TransactionType ∧
      (o.UpdateBaseVolume v).Pair = o.Pair ∧ (o.UpdateBaseVolume v).Price = o.Price ∧
      (o.UpdateBaseVolume v).PriceOfQuoteToBase = o.PriceOfQuoteToBase) ∧
    ((o.UpdateQuoteVolume v).TransactionType = o.TransactionType ∧
      (o.UpdateQuoteVolume v).Pair = o.Pair ∧ (o.UpdateQuoteVolume v).Price = o.Price ∧
      (o.UpdateQuoteVolume v).PriceOfQuoteToBase = o.PriceOfQuoteToBase) ∧
    (o.Init pair price v).TransactionType = o.TransactionType ∧
    ((o.call c).TransactionType ≠ o.TransactionType →
      c.isMatching = true ∨ c.isSideInit = true) := by
  refine ⟨by simp [Order.UpdateBaseVolume], by simp [Order.UpdateQuoteVolume],
    by simp [Order.Init, Order.UpdateBaseVolume], ?_⟩
  cases c <;>
    simp [Order.call, Order.Init, Order.UpdateBaseVolume, Order.UpdateQuoteVolume,
      OrderCall.isMatching, OrderCall.isSideInit]

/-- The side of the sample bid changes under CreateMatchingAsk, a matching derivation. -/
theorem side_changes_only_by_matching_or_side_init_witness :
    (sampleBid.call OrderCall.CreateMatchingAsk).TransactionType ≠
      sampleBid.TransactionType ∧
    (OrderCall.CreateMatchingAsk.isMatching = true ∨
      OrderCall.CreateMatchingAsk.isSideInit = true) :=
  ⟨by decide,
   (side_changes_only_by_matching_or_side_init sampleBid ethBtc 2 3
      OrderCall.CreateMatchingAsk).2.2.2 (by decide)⟩

/-- An update or a matching derivation keeps the price of the order. -/
theorem call_keeps_price (o : Order) (c : OrderCall) (hc : c.isUpdateOrMatching = true) :
    (o.call c).Price = o.Price := by
  cases c with
  | Init _ _ _ => simp [OrderCall.isUpdateOrMatching] at hc
  | InitAsk _ _ _ => simp [OrderCall.isUpdateOrMatching] at hc
  | InitBid _ _ _ => simp [OrderCall.isUpdateOrMatching] at hc
  | UpdateBaseVolume _ => simp [Order.call, Order.UpdateBaseVolume]
  | UpdateQuoteVolume _ => simp [Order.call, Order.UpdateQuoteVolume]
  | CreateMatchingAsk =>
    simp only [Order.call, yielded, Order.CreateMatchingAsk]
    split_ifs <;> rfl
  | CreateMatchingBid =>
    simp only [Order.call, yielded, Order.CreateMatchingBid]
    split_ifs <;> rfl

/-- An update or a matching derivation on an order of non-zero price keeps the
three invariants. -/
theorem call_keeps_invariant (o : Order) (c : OrderCall) (hp : o.Price ≠ 0)
    (hi : o.Invariant) (hc : c.isUpdateOrMatching = true) : (o.call c).Invariant := by
  obtain ⟨h1, h2, h3⟩ := hi
  cases c with
  | Init _ _ _ => simp [OrderCall.isUpdateOrMatching] at hc
  | InitAsk _ _ _ => simp [OrderCall.isUpdateOrMatching] at hc
  | InitBid _ _ _ => simp [OrderCall.isUpdateOrMatching] at hc
  | UpdateBaseVolume b =>
    refine ⟨?_, ?_, ?_⟩
    · simpa [Order.call, Order.UpdateBaseVolume] using h1
    · simp [Order.call, Order.UpdateBaseVolume]
    · simp only [Order.call, Order.UpdateBaseVolume]; ring
  | UpdateQuoteVolume q =>
    refine ⟨?_, ?_, ?_⟩
    · simpa [Order.call, Order.UpdateQuoteVolume] using h1
    · simp only [Order.call, Order.UpdateQuoteVolume]; field_simp
    · simp only [Order.call, Order.UpdateQuoteVolume]; ring
  | CreateMatchingAsk =>
    simp only [Order.call, yielded, Order.CreateMatchingAsk]
    split_ifs
    · exact ⟨h1, h2, h3⟩
    · exact ⟨h1, h2, h3⟩
  | CreateMatchingBid =>
    simp only [Order.call, yielded, Order.CreateMatchingBid]
    split_ifs
    · exact ⟨h1, h2, h3⟩
    · exact ⟨h1, h2, h3⟩

/-- A finite sequence of updates and matching derivations on an order of non-zero
price keeps the three invariants and the price. -/
theorem calls_keep_invariant (cs : List OrderCall) :
    ∀ o : Order, o.Price ≠ 0 → o.Invariant →
      (∀ c ∈ cs, c.isUpdateOrMatching = true) →
      (o.calls cs).Invariant ∧ (o.calls cs).Price = o.Price := by
  induction cs with
  | nil => intro o _ hi _; exact ⟨hi, rfl⟩
  | cons c cs ih =>
    intro o hp hi hcs
    have hc : c.isUpdateOrMatching = true := hcs c (List.mem_cons_self c cs)
    have hk : (o.call c).Price = o.Price := call_keeps_price o c hc
    have hstep := ih (o.call c) (by rw [hk]; exact hp) (call_keeps_invariant o c hp hi hc)
      (fun d hd => hcs d (List.mem_cons_of_mem c hd))
    simp only [Order.calls, List.foldl_cons]
    exact ⟨hstep.1, by rw [← hk]; exact hstep.2⟩

/-- An order built by NewBid or NewAsk satisfies the three invariants. -/
theorem new_order_invariant (pair : CurrencyPair) (price v : ℚ) :
    (NewBid pair price v).Invariant ∧ (NewAsk pair price v).Invariant := by
  simp only [Order.Invariant, NewBid, NewAsk, Order.InitBid, Order.InitAsk, Order.Init,
    Order.UpdateBaseVolume]
  refine ⟨⟨trivial, trivial, ?_⟩, ⟨trivial, trivial, ?_⟩⟩ <;> ring

/-- C10: the Order invariants hold in every reachable state.  For every Order
obtained from NewBid or NewAsk with price > 0 followed by any finite sequence
of UpdateBaseVolume, UpdateQuoteVolume, CreateMatchingAsk and CreateMatchingBid
(the returned order being taken on success), PriceOfQuoteToBase = 1 / Price,
QuoteVolume = Price × BaseVolume and Fee = 0.0025 × BaseVolume hold together,
and the price is still the one given at construction. -/
theorem invariants_hold_in_reachable_states (pair : CurrencyPair) (price v : ℚ)
    (cs : List OrderCall) (hp : 0 < price)
    (hcs : ∀ c ∈ cs, c.isUpdateOrMatching = true) :
    (((NewBid pair price v).calls cs).Invariant ∧
      ((NewBid pair price v).calls cs).Price = price) ∧
    (((NewAsk pair price v).calls cs).Invariant ∧
      ((NewAsk pair price v).calls cs).Price = price) := by
  have hb : (NewBid pair price v).Price = price := by
    simp [NewBid, Order.InitBid, Order.Init, Order.UpdateBaseVolume]
  have ha : (NewAsk pair price v).Price = price := by
    simp [NewAsk, Order.InitAsk, Order.Init, Order.UpdateBaseVolume]
  have hne : price ≠ 0 := ne_of_gt hp
  have h1 := calls_keep_invariant cs (NewBid pair price v) (by rw [hb]; exact hne)
    (new_order_invariant pair price v).1 hcs
  have h2 := calls_keep_invariant cs (NewAsk pair price v) (by rw [ha]; exact hne)
    (new_order_invariant pair price v).2 hcs
  exact ⟨⟨h1.1, by rw [h1.2, hb]⟩, ⟨h2.1, by rw [h2.2, ha]⟩⟩

/-- A bid at price 2, then a reverse cascade, a matching ask, a second matching
ask (refused) and a forward cascade: the invariants hold at the end. -/
theorem invariants_hold_in_reachable_states_witness :
    (0 : ℚ) < 2 ∧
    (∀ c ∈ [OrderCall.UpdateQuoteVolume 5, OrderCall.CreateMatchingAsk,
        OrderCall.CreateMatchingAsk, OrderCall.UpdateBaseVolume 7],
      c.isUpdateOrMatching = true) ∧
    ((NewBid ethBtc 2 3).calls [OrderCall.UpdateQuoteVolume 5, OrderCall.CreateMatchingAsk,
      OrderCall.CreateMatchingAsk, OrderCall.UpdateBaseVolume 7]).Invariant :=
  ⟨by simp, by simp [OrderCall.isUpdateOrMatching],
   (invariants_hold_in_reachable_states ethBtc 2 3
      [OrderCall.UpdateQuoteVolume 5, OrderCall.CreateMatchingAsk,
        OrderCall.CreateMatchingAsk, OrderCall.UpdateBaseVolume 7]
      (by simp) (by simp [OrderCall.isUpdateOrMatching])).1.1⟩

end core
